import Mathlib

/-!
Shallow embedding of the go-mirror-server repository (mirror.go,
custom_file_reader.go, and the earlier reader revision unnamed/part_000),
with theorems settling the frozen claims about it.

Bytes are modelled as `Nat`, file contents as `List Nat`, int64 quantities
of the seek interface as `Int`, and the process-wide registry state as an
explicit record threaded through the operations.
-/

/-! ## Growing-file reader (custom_file_reader.go) -/

/-- The exit condition of the polling loop in CustomReadSeeker.WaitForSize
(custom_file_reader.go line 33): the loop breaks when
`t.finalSize <= stat.Size() || goalSize <= stat.Size()`. -/
def waitForSizeExit (finalSize goal diskLen : Nat) : Bool :=
  decide (finalSize ≤ diskLen) || decide (goal ≤ diskLen)

/-- CustomReadSeeker.WaitForSize (custom_file_reader.go lines 24-40) with an
explicit bound on the number of poll iterations, for a fetch that has died:
the on-disk size `diskLen` no longer changes between polls.  `some ()` models
the loop breaking (returning nil); `none` models the loop still running after
`fuel` iterations.  The only error return in the source is a failing Stat,
which cannot occur on a valid open handle (POSIX fstat succeeds even after
the file is unlinked), so it is not modelled. -/
def waitForSize (finalSize goal diskLen : Nat) : Nat → Option Unit
  | 0 => none
  | fuel + 1 =>
    if waitForSizeExit finalSize goal diskLen then some () else
    waitForSize finalSize goal diskLen fuel

/-- The bytes a POSIX read of up to `n` bytes at position `pos` delivers from
a file whose current contents are `disk`: the OS returns what is available,
clamped to the end of the file, with no regard to any declared total size. -/
def readChunk (disk : List Nat) (pos n : Nat) : List Nat :=
  (disk.drop pos).take n

/-- Model of CustomReadSeeker.Read (custom_file_reader.go lines 42-54),
evaluated at the moment the WaitForSize poll observes the on-disk state
`disk`: if the wait condition for goal `pos + n` holds, the subsequent
`t.fileHandler.Read(p)` returns `readChunk disk pos n`; otherwise the call is
still blocked in the poll loop (`none`).  Note the source contains no
clamping of the read to `finalSize`. -/
def customReadSeekerRead (finalSize : Nat) (disk : List Nat) (pos n : Nat) :
    Option (List Nat) :=
  if waitForSizeExit finalSize (pos + n) disk.length then
    some (readChunk disk pos n)
  else none

/-- One client's serve loop (http.ServeContent draining the reader): a
sequence of reads of chunk size `c` starting at position `pos`, the i-th read
executed while the growing file is in state `ds.get i`.  Each read advances
the handle position by the number of bytes it returned, exactly as the shared
file-handle cursor does in the source. -/
def piggyServe (c : Nat) (pos : Nat) : List (List Nat) → List Nat
  | [] => []
  | d :: ds =>
    let chunk := readChunk d pos c
    chunk ++ piggyServe c (pos + chunk.length) ds

/-- Well-formedness of one piggy-backed serve: at every read, the on-disk
state is a prefix of the final content `content` (the fetcher appends the
final bytes in order), and the WaitForSize condition with which
CustomReadSeeker.Read guards the read has become true, with the reader's
declared final size equal to `content.length`. -/
def serveOk (content : List Nat) (c : Nat) : Nat → List (List Nat) → Bool
  | _, [] => true
  | pos, d :: ds =>
    d.isPrefixOf content &&
    waitForSizeExit content.length (pos + c) d.length &&
    serveOk content c (pos + (readChunk d pos c).length) ds

/-- Error outcomes of CustomReadSeeker.Seek in custom_file_reader.go. -/
inductive SeekErr
  | statFailed
  | notProgressedFarEnough
  | notImplemented
  | invalidArgument
  deriving DecidableEq

/-- Result of a seek call. -/
inductive SeekResult
  | ok (pos : Int)
  | err (e : SeekErr)
  deriving DecidableEq

/-- Model of CustomReadSeeker.Seek (custom_file_reader.go lines 56-78).
`stat` is the observation a Stat of the growing file would make: `some d`
for current on-disk size `d`, `none` if Stat would fail.  The branch for
`offset == 0 && whence == io.SeekEnd` answers from `t.finalSize` without
consulting `stat` at all; the SeekStart branch stats the file and rejects
offsets beyond the bytes already written ("download not progressed far
enough"), then delegates to the OS seek, which rejects a negative target
(EINVAL); every other whence is "not implemented". -/
def seek (finalSize : Int) (stat : Option Int) (offset whence : Int) :
    SeekResult :=
  if offset = 0 ∧ whence = 2 then .ok finalSize
  else if whence = 0 then
    match stat with
    | none => .err .statFailed
    | some diskLen =>
      if diskLen < offset then .err .notProgressedFarEnough
      else if offset < 0 then .err .invalidArgument
      else .ok offset
  else .err .notImplemented

/-- Error outcomes of the earlier reader revision's Seek
(src/unnamed/part_000): the "invaild Offset: ouside of maximum file
dimensions" error and the invalid-whence error. -/
inductive SeekErrV0
  | invalidOffset
  | invalidWhence
  deriving DecidableEq

/-- Model of CustomReadSeeker.Seek from the earlier revision
src/unnamed/part_000 lines 57-82: a pure update of the reader's
`positionInFile` field, returning the (possibly unchanged) position together
with an optional error, one case per whence value 0/1/2 with a default
error case. -/
def seekV0 (finalSize pos offset whence : Int) : Int × Option SeekErrV0 :=
  if whence = 0 then
    if offset > finalSize ∨ offset < 0 then (pos, some .invalidOffset)
    else (offset, none)
  else if whence = 1 then
    if offset + pos > finalSize ∨ offset + pos < 0 then (pos, some .invalidOffset)
    else (offset + pos, none)
  else if whence = 2 then
    if offset + finalSize > finalSize ∨ offset + finalSize < 0 then
      (pos, some .invalidOffset)
    else (offset + finalSize, none)
  else (pos, some .invalidWhence)

/-- The position a seek resolves to: from start it is the offset, from
current it is offset + position, from end it is offset + declared size. -/
def seekTarget (finalSize pos offset whence : Int) : Int :=
  if whence = 0 then offset
  else if whence = 1 then offset + pos
  else offset + finalSize

/-! ## Download registry and dispatcher (mirror.go) -/

/-- The FileInfo record stored in the `files` map (mirror.go lines 21-24);
the unused per-entry mutex is omitted, `fullSize` is the size grab reports
from the origin response. -/
structure FileInfo where
  fullSize : Int
  deriving DecidableEq

/-- The process-wide state of mirror.go: the `files` map of in-flight
downloads with its guarding `filesLock`, the set of grab transfers that have
been started (a `client.Do` call issued), and the contents of the cache
directory on disk. -/
structure MirrorState where
  files : List (String × FileInfo)
  lockHeld : Bool
  launched : List String
  disk : List (String × List Nat)
  deriving DecidableEq

/-- Overwrite (or create) the entry for key `k` in an association list. -/
def setEntry {α : Type} (k : String) (v : α) (l : List (String × α)) :
    List (String × α) :=
  (k, v) :: l.filter (fun p => !(p.1 == k))

/-- Keys of the registry map are pairwise distinct (what a Go map guarantees
structurally; our association-list embedding carries it as an invariant). -/
def keysNodup (s : MirrorState) : Prop :=
  (s.files.map Prod.fst).Nodup

/-- Model of startDownload (mirror.go lines 180-213).  It acquires
`filesLock` (blocking, `none`, if already held); if an entry for the key
exists it returns immediately — with the lock still held, since the early
`return` at line 186 skips the `filesLock.Unlock()` at line 210; otherwise
it issues the grab request (`client.Do`, recorded in `launched`), stores the
new FileInfo with the size grab reported, and releases the lock. -/
def startDownload (k : String) (size : Int) (s : MirrorState) :
    Option MirrorState :=
  if s.lockHeld then none else
  let s1 := { s with lockHeld := true }
  match s1.files.lookup k with
  | some _ => some s1
  | none =>
    some { s1 with
      launched := k :: s1.launched,
      files := (k, ⟨size⟩) :: s1.files,
      lockHeld := false }

/-- Model of isBeingDownloaded (mirror.go lines 172-177): acquire the lock
(blocking if held), look the key up, release the lock via defer. -/
def isBeingDownloaded (k : String) (s : MirrorState) :
    Option (Bool × MirrorState) :=
  if s.lockHeld then none
  else some ((s.files.lookup k).isSome, s)

/-- Model of the dispatcher's piggy-back lookup (mirror.go lines 110-120 and
90-97): acquire the lock (blocking if held), read the FileInfo for the key,
release the lock before serving. -/
def piggyLookup (k : String) (s : MirrorState) :
    Option (Option FileInfo × MirrorState) :=
  if s.lockHeld then none
  else some (s.files.lookup k, s)

/-- Model of a grab transfer for key `k` reaching its end.  The grab download
client is an external dependency of this repository (not under src/); per its
documented contract the AfterCopy hook that startDownload registers
(mirror.go lines 199-205) runs only after the transfer has completed
successfully, and a failed transfer leaves the partially written destination
file in place.  On success the completed bytes `full` are on disk and the
hook locks the registry, deletes the entry and unlocks (mirror.go lines
201-203); on failure no hook runs: the registry entry stays and the partial
bytes `partBytes` stay on disk — no code in this repository removes them. -/
def finishFetch (k : String) (success : Bool) (full partBytes : List Nat)
    (s : MirrorState) : Option MirrorState :=
  if success then
    if s.lockHeld then none
    else some { s with
      disk := setEntry k full s.disk,
      files := s.files.filter (fun p => !(p.1 == k)) }
  else
    some { s with disk := setEntry k partBytes s.disk }

/-- The list of mutable-file suffixes (mirror.go line 143). -/
def forceCheckFiles : List String := [".db", ".db.sig", ".files"]

/-- Go's strings.HasSuffix, on the underlying character lists. -/
def hasSuffix (s e : String) : Bool :=
  e.data.isSuffixOf s.data

/-- Model of forceCheckAtServer (mirror.go lines 141-151): true iff the file
name ends in one of the mutable suffixes. -/
def forceCheckAtServer (fileName : String) : Bool :=
  forceCheckFiles.any (fun e => hasSuffix fileName e)

/-- The externally visible outcome of one handleRequest dispatch. -/
inductive ServeAction
  | piggyBackAfterStart
  | piggyBack
  | noResponse
  | cachedServe
  | blockedOnLock
  deriving DecidableEq

/-- Model of the dispatch decision of handleRequest (mirror.go lines
85-135), as a function of whether the cache file exists on disk, whether a
registry record for the key is present, and the file name.  When the file is
absent and a record already exists, startDownload returns with the lock
held, so the `filesLock.Lock()` at line 90 blocks forever.  When the file
exists, is not being downloaded, and forceCheckAtServer is true, the branch
at lines 128-130 only logs ("Downloading anyways") and handleRequest returns
nil without writing a response and without starting any download. -/
def handleRequestAction (fileExists recordPresent : Bool) (fileName : String) :
    ServeAction :=
  if !fileExists then
    if recordPresent then .blockedOnLock else .piggyBackAfterStart
  else if recordPresent then .piggyBack
  else if forceCheckAtServer fileName then .noResponse
  else .cachedServe

/-! ## Event traces for the lock discipline -/

/-- Events relevant to the lock-discipline claim: acquiring and releasing
`filesLock`, performing a network request (grab's `client.Do`, which blocks
until the origin's response headers arrive), and serving file contents
(http.ServeContent draining a reader). -/
inductive Ev
  | lock
  | unlock
  | net
  | serve
  deriving DecidableEq

/-- The event trace of startDownload (mirror.go lines 180-213): lock at line
183; on the early return (entry present) nothing more; otherwise the
`client.Do` network call at line 206 and only then the unlock at line 210. -/
def startDownloadEvents (recordPresent : Bool) : List Ev :=
  if recordPresent then [.lock] else [.lock, .net, .unlock]

/-- The event trace of one handleRequest dispatch (mirror.go lines 85-135):
the absent path runs startDownload then locks, looks up, unlocks (line 97)
before http.ServeContent (line 98); the existing-file paths first run
isBeingDownloaded (lock/unlock), then either the piggy-back lookup
(lock, unlock at line 120, then serve at line 121), the log-only
force-check branch, or the plain cached serve. -/
def handleRequestEvents (fileExists recordPresent : Bool) (fileName : String) :
    List Ev :=
  if !fileExists then
    startDownloadEvents recordPresent ++ [.lock, .unlock, .serve]
  else
    [.lock, .unlock] ++
      (if recordPresent then [.lock, .unlock, .serve]
       else if forceCheckAtServer fileName then []
       else [.serve])

/-- Whether a trace performs a network call while the lock is held
(`held` is the lock state on entry). -/
def netUnderLock (held : Bool) : List Ev → Bool
  | [] => false
  | Ev.lock :: t => netUnderLock true t
  | Ev.unlock :: t => netUnderLock false t
  | Ev.net :: t => held || netUnderLock held t
  | Ev.serve :: t => netUnderLock held t

/-- Whether a trace serves file contents while the lock is held. -/
def serveUnderLock (held : Bool) : List Ev → Bool
  | [] => false
  | Ev.lock :: t => serveUnderLock true t
  | Ev.unlock :: t => serveUnderLock false t
  | Ev.net :: t => serveUnderLock held t
  | Ev.serve :: t => held || serveUnderLock held t

/-! ## Concrete inputs used by counterexamples and witnesses -/

/-- A ten-byte on-disk file, longer than a declared total size of five: the
state a misbehaving writer can produce. -/
def disk10 : List Nat := [0, 1, 2, 3, 4, 5, 6, 7, 8, 9]

/-- The empty initial state: no in-flight downloads, lock free, nothing
launched, empty cache directory. -/
def s0 : MirrorState := ⟨[], false, [], []⟩

/-! ## Helper lemmas -/

/-- Reading from a prefix of the final content gives the same bytes as
reading from the final content, once the WaitForSize condition for the
requested range holds. -/
theorem readChunk_eq_of_prefix (content d : List Nat) (pos n : Nat)
    (hpre : d <+: content)
    (hwait : waitForSizeExit content.length (pos + n) d.length = true) :
    readChunk d pos n = readChunk content pos n := by
  have hexit : content.length ≤ d.length ∨ pos + n ≤ d.length := by
    simpa [waitForSizeExit] using hwait
  rcases hexit with h | h
  · have hd : d = content := hpre.eq_of_length (le_antisymm hpre.length_le h)
    rw [hd]
  · obtain ⟨t, rfl⟩ := hpre
    have hpos : pos ≤ d.length := le_trans (Nat.le_add_right pos n) h
    unfold readChunk
    rw [List.drop_append_of_le_length hpos,
      List.take_append_of_le_length (by simp; omega)]

/-- The lookup of a key that is absent from an association list means the key
is not among the mapped-out keys. -/
theorem not_mem_keys_of_lookup_none {α : Type} (k : String)
    (l : List (String × α)) (h : l.lookup k = none) :
    k ∉ l.map Prod.fst := by
  induction l with
  | nil => simp
  | cons a t ih =>
    simp only [List.lookup] at h
    by_cases hk : k == a.1
    · simp [hk] at h
    · simp only [hk] at h
      simp only [List.map_cons, List.mem_cons]
      rintro (rfl | hm)
      · simp at hk
      · exact ih h hm

/-! ## Claim theorems -/

/-- C2: piggy-back correctness.  For any final content, chunk size, start
position and sequence of on-disk snapshots at which the reads of a
piggy-backed serve execute — each snapshot a prefix of the final content with
the WaitForSize guard satisfied — the bytes the piggy-backing client receives
are identical to the bytes of the same serve performed against the completed
file. -/
theorem piggyback_byte_identical (content : List Nat) (c : Nat) (pos : Nat)
    (ds : List (List Nat)) (h : serveOk content c pos ds = true) :
    piggyServe c pos ds = piggyServe c pos (List.replicate ds.length content) := by
  induction ds generalizing pos with
  | nil => simp [piggyServe]
  | cons d ds ih =>
    simp only [serveOk, Bool.and_eq_true] at h
    obtain ⟨⟨hpre, hwait⟩, hrest⟩ := h
    have hpre2 : d <+: content := List.isPrefixOf_iff_prefix.mp hpre
    have hchunk : readChunk d pos c = readChunk content pos c :=
      readChunk_eq_of_prefix content d pos c hpre2 hwait
    rw [hchunk] at hrest
    simp only [piggyServe, List.length_cons, List.replicate_succ, hchunk]
    exact congrArg _ (ih _ hrest)

/-- C2 witness: a two-read serve of the three-byte content [1, 2, 3], the
first read taken while only [1, 2] is on disk, delivers the same bytes as
the serve of the completed file. -/
theorem piggyback_byte_identical_witness :
    piggyServe 2 0 [[1, 2], [1, 2, 3]] =
      piggyServe 2 0 (List.replicate (List.length [[1, 2], [1, 2, 3]]) [1, 2, 3]) :=
  piggyback_byte_identical [1, 2, 3] 2 0 [[1, 2], [1, 2, 3]] (by decide)

/-- C3 counterexample: with declared total size 5 but 10 bytes on disk, a
read of 4 bytes at cursor 3 is not blocked (the wait condition holds because
finalSize ≤ on-disk size) and returns the on-disk bytes at offsets 3..6 —
offsets 5 and 6 lie beyond the declared total size, so the claimed clamp to
the range before `declaredTotalSize` does not happen. -/
theorem read_no_clamp_cex :
    customReadSeekerRead 5 disk10 3 4 = some (readChunk disk10 3 4) ∧
    readChunk disk10 3 4 = [3, 4, 5, 6] ∧
    5 < 3 + (readChunk disk10 3 4).length := by decide

/-- C3 (amended): Read clamps to the current on-disk size, not to the
declared total size; consequently whenever the on-disk file is no larger
than the declared total size S, no read returns bytes at offsets beyond S
(a nonempty result ends at an offset at most S). -/
theorem read_bounded_when_disk_bounded (S : Nat) (disk : List Nat)
    (pos n : Nat) (bytes : List Nat) (hdisk : disk.length ≤ S)
    (hread : customReadSeekerRead S disk pos n = some bytes) :
    bytes = [] ∨ pos + bytes.length ≤ S := by
  have hb : bytes = readChunk disk pos n := by
    unfold customReadSeekerRead at hread
    by_cases h : waitForSizeExit S (pos + n) disk.length = true
    · rw [if_pos h] at hread
      exact (Option.some.injEq _ _ ▸ hread).symm
    · rw [if_neg h] at hread
      exact absurd hread (by simp)
  subst hb
  have hlen : (readChunk disk pos n).length = min n (disk.length - pos) := by
    simp [readChunk]
  by_cases hz : (readChunk disk pos n).length = 0
  · exact Or.inl (List.eq_nil_of_length_eq_zero hz)
  · exact Or.inr (by omega)

/-- C3 amended witness: with declared size 3 and two bytes on disk, the
one-byte read at cursor 1 stays within the declared size. -/
theorem read_bounded_when_disk_bounded_witness :
    ([8] : List Nat) = [] ∨ 1 + ([8] : List Nat).length ≤ 3 :=
  read_bounded_when_disk_bounded 3 [7, 8] 1 1 [8] (by decide) (by decide)

/-- C4: after a fetch dies with the file stuck at 50 bytes, a Read whose
WaitForSize goal is 60 against a declared final size of 100 stays in the
poll loop for every number of iterations — the source has no abort signal,
no DownloadAborted error, and no exit from the loop other than the size
condition, so the blocked Read never returns an error; it blocks forever. -/
theorem waitForSize_never_aborts (fuel : Nat) :
    waitForSize 100 60 50 fuel = none := by
  induction fuel with
  | zero => rfl
  | succ n ih => simpa [waitForSize, waitForSizeExit] using ih

/-- C5 counterexample: with declared total size 10 and an empty on-disk
file, the current reader rejects the seek-from-start to offset 5 — inside
[0, 10] — with the "download not progressed far enough" error, and rejects
an in-range seek-from-current with "not implemented"; so in-range seeks can
fail, contradicting the claimed equivalence. -/
theorem seek_inrange_rejected_cex :
    (0 : Int) ≤ 5 ∧ (5 : Int) ≤ 10 ∧
    seek 10 (some 0) 5 0 = .err .notProgressedFarEnough ∧
    seek 10 (some 0) 1 1 = .err .notImplemented := by decide

/-- C5 (amended): the claimed equivalence holds for the earlier reader
revision (src/unnamed/part_000): for whence in SeekStart/SeekCurrent/SeekEnd
its Seek fails with the invalid-offset error iff the resulting position is
below 0 or above the declared total size, and succeeds iff the resulting
position lies in [0, S].  The current reader (src/custom_file_reader.go)
instead accepts only seek-end with offset 0 and seek-from-start up to the
bytes already on disk. -/
theorem seekV0_invalidRange_iff (S pos offset whence : Int)
    (hw : whence = 0 ∨ whence = 1 ∨ whence = 2) :
    ((seekV0 S pos offset whence).2 = some SeekErrV0.invalidOffset ↔
      (seekTarget S pos offset whence < 0 ∨ S < seekTarget S pos offset whence)) ∧
    ((seekV0 S pos offset whence).2 = none ↔
      (0 ≤ seekTarget S pos offset whence ∧ seekTarget S pos offset whence ≤ S)) := by
  rcases hw with rfl | rfl | rfl <;>
    constructor <;>
      simp only [seekV0, seekTarget] <;>
        split_ifs with h <;> simp <;> omega

/-- C5 amended witness: for declared size 10, position 0, the out-of-range
seek-from-start to offset 11 satisfies both equivalences. -/
theorem seekV0_invalidRange_iff_witness :
    (((seekV0 10 0 11 0).2 = some SeekErrV0.invalidOffset ↔
      (seekTarget 10 0 11 0 < 0 ∨ 10 < seekTarget 10 0 11 0)) ∧
     ((seekV0 10 0 11 0).2 = none ↔
      (0 ≤ seekTarget 10 0 11 0 ∧ seekTarget 10 0 11 0 ≤ 10))) :=
  seekV0_invalidRange_iff 10 0 11 0 (Or.inl rfl)

/-- C6: Seek(0, SeekEnd) always returns the declared total size, whatever a
Stat of the growing file would observe — even if Stat would fail — so the
call performs no file I/O, cannot block, and is independent of how many
bytes have been written to disk. -/
theorem seekEnd_zero_returns_declared_size (finalSize : Int) (stat : Option Int) :
    seek finalSize stat 0 2 = .ok finalSize := by
  simp [seek]

/-- C1: single-flight.  In a state with distinct registry keys, the lock
free, and a record already present for key `k`, any completed startDownload
for `k` leaves the `files` map and the set of launched grab transfers
unchanged — no second fetcher is started and the existing record is the one
a concurrent requester coalesces onto — and any completed startDownload (for
any key) preserves the at-most-one-record-per-key property of the map. -/
theorem single_flight (s : MirrorState) (k k2 : String) (sz sz2 : Int)
    (info : FileInfo) (s1 s2 : MirrorState)
    (hnd : keysNodup s) (hlock : s.lockHeld = false)
    (hrec : s.files.lookup k = some info)
    (h1 : startDownload k sz s = some s1)
    (h2 : startDownload k2 sz2 s = some s2) :
    s1.files = s.files ∧ s1.launched = s.launched ∧ keysNodup s2 := by
  simp only [startDownload, hlock, Bool.false_eq_true, if_false, hrec,
    Option.some.injEq] at h1
  subst h1
  refine ⟨rfl, rfl, ?_⟩
  rcases hl2 : s.files.lookup k2 with _ | info2
  · simp only [startDownload, hlock, Bool.false_eq_true, if_false, hl2,
      Option.some.injEq] at h2
    subst h2
    have hk2 : k2 ∉ s.files.map Prod.fst :=
      not_mem_keys_of_lookup_none k2 s.files hl2
    simpa [keysNodup] using List.nodup_cons.mpr ⟨hk2, hnd⟩
  · simp only [startDownload, hlock, Bool.false_eq_true, if_false, hl2,
      Option.some.injEq] at h2
    subst h2
    exact hnd

/-- C1 witness: in the state with one in-flight record for "a", a second
start for "a" changes neither the map nor the launched transfers, and a
start for "b" keeps the keys distinct. -/
theorem single_flight_witness :
    (MirrorState.mk [("a", ⟨5⟩)] true [] []).files =
      (MirrorState.mk [("a", ⟨5⟩)] false [] []).files ∧
    (MirrorState.mk [("a", ⟨5⟩)] true [] []).launched =
      (MirrorState.mk [("a", ⟨5⟩)] false [] []).launched ∧
    keysNodup (MirrorState.mk [("b", ⟨7⟩), ("a", ⟨5⟩)] false ["b"] []) :=
  single_flight (MirrorState.mk [("a", ⟨5⟩)] false [] []) "a" "b" 5 7 ⟨5⟩
    (MirrorState.mk [("a", ⟨5⟩)] true [] [])
    (MirrorState.mk [("b", ⟨7⟩), ("a", ⟨5⟩)] false ["b"] [])
    (by unfold keysNodup; decide) rfl (by decide) (by decide) (by decide)

/-- C7: after a failed grab transfer for a key started from the empty state,
the registry lookup still finds the record (the AfterCopy cleanup hook only
runs on success, and nothing else ever deletes the entry) and the partially
written cache file is still on disk (no code in the repository removes it) —
the opposite of the claimed absent-lookup plus removed-file outcome. -/
theorem retire_failure_cex :
    ((startDownload "pkg" 100 s0).bind
        (finishFetch "pkg" false [1, 2, 3, 4] [1, 2])).map
      (fun s => ((s.files.lookup "pkg").isSome, (s.disk.lookup "pkg").isSome))
      = some (true, true) := by decide

/-- C8 counterexample: the cold-start path of startDownload performs the
grab network call (client.Do at mirror.go line 206, which blocks until the
origin's response headers arrive) strictly between its acquisition of
filesLock (line 183) and its release (line 210), so the registry mutex is
held across a network call. -/
theorem lock_held_across_network_cex :
    netUnderLock false (startDownloadEvents false) = true := by decide

/-- C8 (amended): the dispatcher does release the registry lock before any
serve of file contents — on every non-deadlocking handleRequest path,
http.ServeContent and the cached serve run with the lock free — but
startDownload itself holds the lock across the grab network request, so the
never-held-across-a-network-call part of the claim fails. -/
theorem lock_released_before_serve (fileExists recordPresent : Bool)
    (fileName : String) (h : fileExists = true ∨ recordPresent = false) :
    serveUnderLock false (handleRequestEvents fileExists recordPresent fileName)
      = false := by
  rcases h with rfl | rfl
  · cases recordPresent <;> by_cases hf : forceCheckAtServer fileName <;>
      simp [handleRequestEvents, serveUnderLock, hf]
  · cases fileExists <;> by_cases hf : forceCheckAtServer fileName <;>
      simp [handleRequestEvents, startDownloadEvents, serveUnderLock, hf]

/-- C8 amended witness: the piggy-back path for an existing file serves with
the lock free. -/
theorem lock_released_before_serve_witness :
    serveUnderLock false (handleRequestEvents true true "x") = false :=
  lock_released_before_serve true true "x" (Or.inl rfl)

/-- C9: for the mutable-suffix key "core.db" with the cache file on disk and
no download record, the dispatcher's force-check branch (mirror.go lines
128-130) neither serves the cached bytes nor starts a revalidation fetch —
it only logs and handleRequest returns nil, leaving the response empty,
although its own log line says "Downloading anyways" and the claim requires
the cached content to be served. -/
theorem mutable_cached_not_served_cex :
    forceCheckAtServer "core.db" = true ∧
    handleRequestAction true false "core.db" = ServeAction.noResponse := by
  decide

/-- C10: when startDownload is called for a key that already has an entry,
it returns early with filesLock still held; afterwards every operation that
acquires filesLock — isBeingDownloaded, a further startDownload for any key,
and the dispatcher's piggy-back lookup — blocks (returns `none` in the
embedding), and since no code path ever releases the abandoned lock, they
block forever. -/
theorem early_return_deadlock (s : MirrorState) (k k2 : String)
    (sz sz2 : Int) (info : FileInfo) (s1 : MirrorState)
    (hlock : s.lockHeld = false) (hrec : s.files.lookup k = some info)
    (h1 : startDownload k sz s = some s1) :
    s1.lockHeld = true ∧ isBeingDownloaded k2 s1 = none ∧
    startDownload k2 sz2 s1 = none ∧ piggyLookup k2 s1 = none := by
  simp only [startDownload, hlock, Bool.false_eq_true, if_false, hrec,
    Option.some.injEq] at h1
  subst h1
  simp [isBeingDownloaded, startDownload, piggyLookup]

/-- C10 witness: starting "a" while "a" is already registered leaves the
lock held, and the subsequent lock-acquiring operations all block. -/
theorem early_return_deadlock_witness :
    (MirrorState.mk [("a", ⟨5⟩)] true [] []).lockHeld = true ∧
    isBeingDownloaded "b" (MirrorState.mk [("a", ⟨5⟩)] true [] []) = none ∧
    startDownload "b" 7 (MirrorState.mk [("a", ⟨5⟩)] true [] []) = none ∧
    piggyLookup "b" (MirrorState.mk [("a", ⟨5⟩)] true [] []) = none :=
  early_return_deadlock (MirrorState.mk [("a", ⟨5⟩)] false [] []) "a" "b" 5 7 ⟨5⟩
    (MirrorState.mk [("a", ⟨5⟩)] true [] [])
    rfl (by decide) (by decide)
